import Mathlib

/-!
Verification of the Bikram Sambat (BS) / Gregorian date-conversion engine
of the Nepalidatepickers repository (`lib/nepali-date`).

The TypeScript source is shallowly embedded:
* JS numbers used as calendar fields are modelled as `Int` (all reachable
  values are integers);
* the `Record<number, number[]>` calendar table is an association list with
  a first-match lookup;
* a JS `Date` instant is represented by its whole-day number: all the code
  ever does with a `Date` is take floored whole-day differences
  (`Math.floor((a.getTime() - b.getTime()) / 86400000)`) and add whole days
  (`setDate(getDate() + n)`), both of which act on the day number;
* `throw`/`try`-`catch` becomes `Except` with the error's `code` field
  (messages and `details` carry no control flow and are dropped);
* the forward converter's `while` loop becomes a structurally recursive
  function with an explicit iteration budget `walkFuel`; the budget strictly
  exceeds the loop's iteration bound (the loop advances one BS month per
  iteration, and only 101 years of months exist before the table lookup
  fails), so the budget-exhaustion branch is unreachable from the converter,
  which is proved below (`walk_ok_spec` et al. never need the branch).
-/

/-- The `code` field of the library's `DateConversionError`. -/
inductive ErrCode where
  | INVALID_NEPALI_DATE
  | INVALID_ENGLISH_DATE
  | OUT_OF_RANGE
deriving DecidableEq, Repr

/-- `interface NepaliDate { year: number; month: number; day: number }`. -/
structure NepaliDate where
  year : Int
  month : Int
  day : Int
deriving DecidableEq, Repr

/-- The BS calendar table `nepaliCalendarData` (BS 2000–2100), transcribed
verbatim from the source: year ↦ the twelve month lengths. -/
def nepaliCalendarData : List (Nat × List Nat) := [
  (2000, [30, 32, 31, 32, 31, 30, 30, 30, 29, 30, 29, 31]),
  (2001, [31, 31, 32, 31, 31, 31, 30, 29, 30, 29, 30, 30]),
  (2002, [31, 31, 32, 32, 31, 30, 30, 29, 30, 29, 30, 30]),
  (2003, [31, 32, 31, 32, 31, 30, 30, 30, 29, 29, 30, 31]),
  (2004, [30, 32, 31, 32, 31, 30, 30, 30, 29, 30, 29, 31]),
  (2005, [31, 31, 32, 31, 31, 31, 30, 29, 30, 29, 30, 30]),
  (2006, [31, 31, 32, 32, 31, 30, 30, 29, 30, 29, 30, 30]),
  (2007, [31, 32, 31, 32, 31, 30, 30, 30, 29, 29, 30, 31]),
  (2008, [31, 31, 31, 32, 31, 31, 29, 30, 30, 29, 29, 31]),
  (2009, [31, 31, 32, 31, 31, 31, 30, 29, 30, 29, 30, 30]),
  (2010, [31, 31, 32, 32, 31, 30, 30, 29, 30, 29, 30, 30]),
  (2011, [31, 32, 31, 32, 31, 30, 30, 30, 29, 29, 30, 31]),
  (2012, [31, 31, 31, 32, 31, 31, 29, 30, 30, 29, 30, 30]),
  (2013, [31, 31, 32, 31, 31, 31, 30, 29, 30, 29, 30, 30]),
  (2014, [31, 31, 32, 32, 31, 30, 30, 29, 30, 29, 30, 30]),
  (2015, [31, 32, 31, 32, 31, 30, 30, 30, 29, 29, 30, 31]),
  (2016, [31, 31, 31, 32, 31, 31, 29, 30, 30, 29, 30, 30]),
  (2017, [31, 31, 32, 31, 31, 31, 30, 29, 30, 29, 30, 30]),
  (2018, [31, 32, 31, 32, 31, 30, 30, 29, 30, 29, 30, 30]),
  (2019, [31, 32, 31, 32, 31, 30, 30, 30, 29, 30, 29, 31]),
  (2020, [31, 31, 31, 32, 31, 31, 30, 29, 30, 29, 30, 30]),
  (2021, [31, 31, 32, 31, 31, 31, 30, 29, 30, 29, 30, 30]),
  (2022, [31, 32, 31, 32, 31, 30, 30, 30, 29, 29, 30, 30]),
  (2023, [31, 32, 31, 32, 31, 30, 30, 30, 29, 30, 29, 31]),
  (2024, [31, 31, 31, 32, 31, 31, 30, 29, 30, 29, 30, 30]),
  (2025, [31, 31, 32, 31, 31, 31, 30, 29, 30, 29, 30, 30]),
  (2026, [31, 32, 31, 32, 31, 30, 30, 30, 29, 29, 30, 31]),
  (2027, [30, 32, 31, 32, 31, 30, 30, 30, 29, 30, 29, 31]),
  (2028, [31, 31, 32, 31, 31, 31, 30, 29, 30, 29, 30, 30]),
  (2029, [31, 31, 32, 31, 32, 30, 30, 29, 30, 29, 30, 30]),
  (2030, [31, 32, 31, 32, 31, 30, 30, 30, 29, 29, 30, 31]),
  (2031, [30, 32, 31, 32, 31, 30, 30, 30, 29, 30, 29, 31]),
  (2032, [31, 31, 32, 31, 31, 31, 30, 29, 30, 29, 30, 30]),
  (2033, [31, 31, 32, 32, 31, 30, 30, 29, 30, 29, 30, 30]),
  (2034, [31, 32, 31, 32, 31, 30, 30, 30, 29, 29, 30, 31]),
  (2035, [30, 32, 31, 32, 31, 31, 29, 30, 30, 29, 29, 31]),
  (2036, [31, 31, 32, 31, 31, 31, 30, 30, 29, 30, 30, 30]),
  (2037, [30, 31, 32, 32, 31, 30, 30, 30, 29, 30, 30, 30]),
  (2038, [30, 32, 31, 32, 31, 30, 30, 30, 29, 30, 30, 30]),
  (2039, [30, 31, 32, 32, 31, 30, 30, 30, 29, 30, 30, 30]),
  (2040, [30, 32, 31, 32, 31, 30, 30, 30, 29, 30, 30, 30]),
  (2041, [31, 31, 32, 31, 31, 31, 30, 30, 29, 30, 30, 30]),
  (2042, [30, 31, 32, 32, 31, 30, 30, 30, 29, 30, 30, 30]),
  (2043, [31, 32, 31, 32, 31, 30, 30, 30, 29, 30, 30, 30]),
  (2044, [31, 31, 32, 31, 31, 31, 30, 29, 30, 29, 30, 30]),
  (2045, [31, 31, 32, 31, 31, 31, 30, 29, 29, 30, 30, 30]),
  (2046, [31, 32, 31, 32, 31, 30, 30, 30, 29, 30, 30, 30]),
  (2047, [31, 31, 31, 32, 31, 31, 29, 30, 29, 30, 30, 30]),
  (2048, [31, 31, 32, 31, 31, 31, 30, 30, 29, 30, 30, 30]),
  (2049, [31, 32, 31, 32, 31, 30, 30, 30, 29, 30, 30, 30]),
  (2050, [31, 32, 31, 32, 31, 30, 30, 30, 29, 30, 30, 30]),
  (2051, [31, 31, 31, 32, 31, 31, 30, 29, 30, 29, 30, 30]),
  (2052, [31, 31, 32, 31, 31, 31, 30, 30, 29, 30, 30, 30]),
  (2053, [31, 32, 31, 32, 31, 30, 30, 30, 29, 30, 30, 30]),
  (2054, [31, 32, 31, 32, 31, 30, 30, 30, 29, 30, 30, 30]),
  (2055, [31, 31, 32, 31, 31, 31, 30, 29, 30, 29, 30, 30]),
  (2056, [31, 31, 32, 31, 32, 30, 30, 29, 30, 29, 30, 30]),
  (2057, [31, 32, 31, 32, 31, 30, 30, 30, 29, 30, 30, 30]),
  (2058, [30, 32, 31, 32, 31, 30, 30, 30, 29, 30, 30, 30]),
  (2059, [31, 31, 32, 31, 31, 31, 30, 29, 30, 29, 30, 30]),
  (2060, [31, 31, 32, 32, 31, 30, 30, 29, 30, 29, 30, 30]),
  (2061, [31, 32, 31, 32, 31, 30, 30, 30, 29, 29, 30, 31]),
  (2062, [30, 32, 31, 32, 31, 31, 29, 30, 29, 30, 29, 31]),
  (2063, [31, 31, 32, 31, 31, 31, 30, 29, 30, 29, 30, 30]),
  (2064, [31, 31, 32, 32, 31, 30, 30, 29, 30, 29, 30, 30]),
  (2065, [31, 32, 31, 32, 31, 30, 30, 30, 29, 29, 30, 31]),
  (2066, [31, 31, 31, 32, 31, 31, 29, 30, 30, 29, 29, 31]),
  (2067, [31, 31, 32, 31, 31, 31, 30, 29, 30, 29, 30, 30]),
  (2068, [31, 31, 32, 32, 31, 30, 30, 29, 30, 29, 30, 30]),
  (2069, [31, 32, 31, 32, 31, 30, 30, 30, 29, 29, 30, 31]),
  (2070, [31, 31, 31, 32, 31, 31, 29, 30, 30, 29, 30, 30]),
  (2071, [31, 31, 32, 31, 31, 31, 30, 29, 30, 29, 30, 30]),
  (2072, [31, 32, 31, 32, 31, 30, 30, 29, 30, 29, 30, 30]),
  (2073, [31, 32, 31, 32, 31, 30, 30, 30, 29, 29, 30, 31]),
  (2074, [31, 31, 31, 32, 31, 31, 30, 29, 30, 29, 30, 30]),
  (2075, [31, 31, 32, 31, 31, 31, 30, 29, 30, 29, 30, 30]),
  (2076, [31, 32, 31, 32, 31, 30, 30, 30, 29, 29, 30, 30]),
  (2077, [31, 32, 31, 32, 31, 30, 30, 30, 29, 30, 29, 31]),
  (2078, [31, 31, 31, 32, 31, 31, 30, 29, 30, 29, 30, 30]),
  (2079, [31, 31, 32, 31, 31, 31, 30, 29, 30, 29, 30, 30]),
  (2080, [31, 32, 31, 32, 31, 30, 30, 30, 29, 29, 30, 30]),
  (2081, [31, 31, 32, 32, 31, 30, 30, 30, 29, 30, 30, 30]),
  (2082, [30, 32, 31, 32, 31, 30, 30, 30, 29, 30, 30, 30]),
  (2083, [31, 31, 32, 31, 31, 30, 30, 30, 29, 30, 30, 30]),
  (2084, [31, 31, 32, 31, 31, 30, 30, 30, 29, 30, 30, 30]),
  (2085, [31, 32, 31, 32, 30, 31, 30, 30, 29, 30, 30, 30]),
  (2086, [30, 32, 31, 32, 31, 30, 30, 30, 29, 30, 30, 30]),
  (2087, [31, 31, 32, 31, 31, 31, 30, 30, 29, 30, 30, 30]),
  (2088, [30, 31, 32, 32, 30, 31, 30, 30, 29, 30, 30, 30]),
  (2089, [30, 32, 31, 32, 31, 30, 30, 30, 29, 30, 30, 30]),
  (2090, [30, 32, 31, 32, 31, 30, 30, 30, 29, 30, 30, 30]),
  (2091, [31, 31, 32, 31, 31, 31, 30, 30, 29, 30, 30, 30]),
  (2092, [30, 31, 32, 32, 31, 30, 30, 30, 29, 30, 30, 30]),
  (2093, [30, 32, 31, 32, 31, 30, 30, 30, 29, 30, 30, 30]),
  (2094, [31, 31, 32, 31, 31, 30, 30, 30, 29, 30, 30, 30]),
  (2095, [31, 31, 32, 31, 31, 31, 29, 30, 29, 30, 30, 30]),
  (2096, [30, 31, 32, 32, 31, 30, 30, 29, 30, 29, 30, 30]),
  (2097, [31, 32, 31, 32, 31, 30, 30, 30, 29, 30, 30, 30]),
  (2098, [31, 31, 32, 31, 31, 31, 30, 29, 29, 30, 30, 30]),
  (2099, [31, 31, 32, 31, 31, 31, 30, 29, 29, 30, 30, 30]),
  (2100, [31, 32, 31, 32, 30, 31, 30, 29, 30, 29, 30, 30])
]

/-- First-match association-list lookup, the meaning of the JS record read
`nepaliCalendarData[year]` (`none` plays the role of `undefined`). -/
def lookupYear (y : Nat) : List (Nat × List Nat) → Option (List Nat)
  | [] => none
  | (k, v) :: rest => if y = k then some v else lookupYear y rest

/-- `nepaliMonthNames`, verbatim. -/
def nepaliMonthNames : List String :=
  ["बैशाख", "जेठ", "आषाढ", "श्रावण", "भाद्र", "आश्विन",
   "कार्तिक", "मंसिर", "पौष", "माघ", "फाल्गुन", "चैत्र"]

/-- `nepaliDayNames`, verbatim. -/
def nepaliDayNames : List String :=
  ["आइतबार", "सोमबार", "मंगलबार", "बुधबार", "बिहिबार", "शुक्रबार", "शनिबार"]

/-- `isValidNepaliDate`: range-check year and month, look the year up in the
table, then check `day >= 1 && day <= monthData[month - 1]`.  The lookup key
is `d.year.toNat`; the year-range guard has already ensured `2000 ≤ d.year`,
so the coercion is exact on every path that reaches the lookup. -/
def isValidNepaliDate (d : NepaliDate) : Bool :=
  if d.year < 2000 ∨ d.year > 2100 then false
  else if d.month < 1 ∨ d.month > 12 then false
  else
    match lookupYear d.year.toNat nepaliCalendarData with
    | none => false
    | some monthData =>
        decide (1 ≤ d.day) && decide (d.day ≤ (monthData.getD (d.month.toNat - 1) 0 : Int))

/-- Gregorian leap-year rule (the rule the host `Date` type implements). -/
def isLeapYear (y : Nat) : Bool :=
  (y % 4 = 0 && y % 100 ≠ 0) || y % 400 = 0

/-- Gregorian month lengths for year `y`. -/
def gregMonthLengths (y : Nat) : List Nat :=
  [31, if isLeapYear y then 29 else 28, 31, 30, 31, 30, 31, 31, 30, 31, 30, 31]

/-- Day number of a proleptic-Gregorian calendar date: the count of days
from a fixed origin up to and including `y-m-d`.  Only differences of day
numbers are ever used, exactly as the source only ever uses whole-day
differences of `Date` values. -/
def gregDayNumber (y m d : Nat) : Nat :=
  365 * (y - 1) + (y - 1) / 4 - (y - 1) / 100 + (y - 1) / 400 +
    ((gregMonthLengths y).take (m - 1)).sum + d

/-- The epoch anchor `new Date(1943, 3, 14)` (April 14, 1943), as a day
number.  BS 2000/1/1 corresponds to this Gregorian date. -/
def epochDayNum : Int := (gregDayNumber 1943 4 14 : Int)

/-- Iteration budget for the forward converter's month walk: strictly more
than the 101 × 12 months the table holds, so the walk always hits its
`break` or its missing-table-entry `throw` first. -/
def walkFuel : Nat := 1224

/-- The `while (nepaliDay > 0)` loop of `englishToNepali`, one recursive call
per loop iteration.  `day = 0` is the loop guard failing (the source then
returns the current `{year, month, day}` record); a failing table lookup
throws `OUT_OF_RANGE`; `day ≤ monthData[month-1]` is the `break`; otherwise
subtract the month length and advance the month, wrapping `month > 12` into
the next year.  The budget case is unreachable from `englishToNepali`
(proved below), and is mapped to the same `OUT_OF_RANGE` outcome the walk
produces whenever it runs off the table. -/
def walk : Nat → Nat → Nat → Nat → Except ErrCode NepaliDate
  | 0, _, _, _ => .error .OUT_OF_RANGE
  | fuel + 1, y, m, day =>
    if day = 0 then .ok ⟨y, m, day⟩
    else
      match lookupYear y nepaliCalendarData with
      | none => .error .OUT_OF_RANGE
      | some monthData =>
          let daysInMonth := monthData.getD (m - 1) 0
          if day ≤ daysInMonth then .ok ⟨y, m, day⟩
          else if 12 ≤ m then walk fuel (y + 1) 1 (day - daysInMonth)
          else walk fuel y (m + 1) (day - daysInMonth)

/-- `englishToNepali`: take the floored whole-day offset of the input from
the epoch anchor; negative offsets throw `OUT_OF_RANGE`; otherwise walk the
table starting from BS 2000/1/(1 + offset).  The input `Date` is represented
by its day number `g`, so `diffDays = g - epochDayNum`. -/
def englishToNepali (g : Int) : Except ErrCode NepaliDate :=
  let diffDays := g - epochDayNum
  if diffDays < 0 then .error .OUT_OF_RANGE
  else walk walkFuel 2000 1 (1 + diffDays.toNat)

/-- The `for (let year = ...; year < nepaliDate.year; year++)` loop of
`nepaliToEnglish`: sum the twelve month lengths of `count` consecutive years
starting at `y`, throwing `OUT_OF_RANGE` at the first year with no table
entry. -/
def sumYears : Nat → Nat → Except ErrCode Nat
  | 0, _ => .ok 0
  | count + 1, y =>
    match lookupYear y nepaliCalendarData with
    | none => .error .OUT_OF_RANGE
    | some monthData => (sumYears count (y + 1)).map (fun s => monthData.sum + s)

/-- `nepaliToEnglish`: validate eagerly, then accumulate `totalDays` over the
complete years `2000 ≤ year < d.year`, the complete months
`1 ≤ month < d.month` of the target year, and `day - 1`, and add the total
to the epoch anchor.  The returned `Date` is represented by its day number.
The `toNat` coercions are exact because validation has ensured
`2000 ≤ d.year` and `1 ≤ d.month`. -/
def nepaliToEnglish (d : NepaliDate) : Except ErrCode Int :=
  if isValidNepaliDate d then
    match sumYears (d.year.toNat - 2000) 2000 with
    | .error e => .error e
    | .ok yearsSum =>
      match lookupYear d.year.toNat nepaliCalendarData with
      | none => .error .OUT_OF_RANGE
      | some targetYearData =>
          let monthsSum := (targetYearData.take (d.month.toNat - 1)).sum
          .ok (epochDayNum + (yearsSum : Int) + (monthsSum : Int) + (d.day - 1))
  else .error .INVALID_NEPALI_DATE

/-- The two-constructor union type `"short" | "long"` of `formatNepaliDate`. -/
inductive DateFormat where
  | short
  | long
deriving DecidableEq, Repr

/-- JS `s.padStart(2, "0")`. -/
def padTwo (s : String) : String :=
  String.mk (List.replicate (2 - s.length) '0') ++ s

/-- `formatNepaliDate`: long mode is `` `${day} ${monthName} ${year}` `` with
`monthName = nepaliMonthNames[month - 1]` (an out-of-range month reads JS
`undefined`, which stringifies to `"undefined"`); short mode is
`` `${year}/${month.padStart(2,"0")}/${day.padStart(2,"0")}` ``. -/
def formatNepaliDate (d : NepaliDate) (format : DateFormat := .short) : String :=
  match format with
  | .long =>
      toString d.day ++ " " ++ nepaliMonthNames.getD (d.month.toNat - 1) "undefined"
        ++ " " ++ toString d.year
  | .short =>
      toString d.year ++ "/" ++ padTwo (toString d.month) ++ "/" ++ padTwo (toString d.day)

/-- `getCurrentNepaliDate`: convert the present instant, substituting the
fallback constant `{2081, 1, 1}` if the conversion throws.  The present
instant is an input here (its day number), since the embedding is pure. -/
def getCurrentNepaliDate (now : Int) : NepaliDate :=
  match englishToNepali now with
  | .ok d => d
  | .error _ => ⟨2081, 1, 1⟩

/-- `getDaysInNepaliMonth`: throw `INVALID_NEPALI_DATE` when the year has no
table entry or the month is out of `[1,12]`, else return
`monthData[month - 1]`.  A negative year collapses under `toNat` to key `0`,
which—like every key outside `[2000,2100]`—is absent from the table, exactly
as `nepaliCalendarData[year]` is `undefined` there in JS. -/
def getDaysInNepaliMonth (year month : Int) : Except ErrCode Int :=
  match lookupYear year.toNat nepaliCalendarData with
  | none => .error .INVALID_NEPALI_DATE
  | some monthData =>
      if month < 1 ∨ month > 12 then .error .INVALID_NEPALI_DATE
      else .ok (monthData.getD (month.toNat - 1) 0 : Int)

/-! ## Derived table quantities used by the proofs -/

/-- Month length read from the table (`0` when the year is absent or the
month index is out of range). -/
def monthLen (y m : Nat) : Nat :=
  ((lookupYear y nepaliCalendarData).getD []).getD (m - 1) 0

/-- Total days of BS year `y` per the table (`0` when absent). -/
def yearLen (y : Nat) : Nat :=
  ((lookupYear y nepaliCalendarData).getD []).sum

/-- Days of BS year `y` strictly before month `m` (sum of months `1..m-1`). -/
def cumMonths (y m : Nat) : Nat :=
  (((lookupYear y nepaliCalendarData).getD []).take (m - 1)).sum

/-- Days of the complete BS years `2000..y-1`. -/
def cumYears (y : Nat) : Nat :=
  ((List.range (y - 2000)).map (fun i => yearLen (2000 + i))).sum

/-- One-based global day index of BS `y/m/d` counted from BS 2000/1/1. -/
def idxN (y m d : Nat) : Nat := cumYears y + cumMonths y m + d

/-- Total number of days covered by the table, BS years 2000..2100. -/
def tableTotalDays : Nat := cumYears 2101

/-- Validity of a BS triple, stated over `Nat` components. -/
def validN (y m d : Nat) : Prop :=
  2000 ≤ y ∧ y ≤ 2100 ∧ 1 ≤ m ∧ m ≤ 12 ∧ 1 ≤ d ∧ d ≤ monthLen y m

instance (y m d : Nat) : Decidable (validN y m d) := by
  unfold validN; infer_instance

/-! ## Table facts -/

theorem lookupYear_mem {y : Nat} {v : List Nat} :
    ∀ {l : List (Nat × List Nat)}, lookupYear y l = some v → (y, v) ∈ l := by
  intro l
  induction l with
  | nil => intro h; exact absurd h (by simp [lookupYear])
  | cons p rest ih =>
      intro h
      rw [lookupYear] at h
      by_cases hy : y = p.1
      · subst hy
        simp [if_pos rfl] at h
        subst h
        exact List.mem_cons_self _ _
      · rw [if_neg hy] at h
        exact List.mem_cons_of_mem _ (ih h)

theorem table_entries_props :
    ∀ p ∈ nepaliCalendarData,
      2000 ≤ p.1 ∧ p.1 ≤ 2100 ∧ p.2.length = 12 ∧ ∀ v ∈ p.2, 29 ≤ v ∧ v ≤ 32 := by
  decide

theorem lookupYear_some_props {y : Nat} {v : List Nat}
    (h : lookupYear y nepaliCalendarData = some v) :
    2000 ≤ y ∧ y ≤ 2100 ∧ v.length = 12 ∧ ∀ x ∈ v, 29 ≤ x ∧ x ≤ 32 :=
  table_entries_props (y, v) (lookupYear_mem h)

theorem lookupYear_isSome_in_range :
    ∀ k < 101, (lookupYear (2000 + k) nepaliCalendarData).isSome = true := by
  decide

theorem lookupYear_exists {y : Nat} (h1 : 2000 ≤ y) (h2 : y ≤ 2100) :
    ∃ v, lookupYear y nepaliCalendarData = some v := by
  have h := lookupYear_isSome_in_range (y - 2000) (by omega)
  have hy : 2000 + (y - 2000) = y := by omega
  rw [hy] at h
  exact Option.isSome_iff_exists.mp h

/-! ## Cumulative-sum lemmas -/

theorem monthLen_eq {y m : Nat} {v : List Nat}
    (h : lookupYear y nepaliCalendarData = some v) :
    monthLen y m = v.getD (m - 1) 0 := by
  simp [monthLen, h]

theorem sum_take_le (l : List Nat) (n : Nat) : (l.take n).sum ≤ l.sum := by
  conv_rhs => rw [← List.take_append_drop n l]
  rw [List.sum_append]
  omega

theorem getD_mem_of_lt {v : List Nat} {n : Nat} (h : n < v.length) : v.getD n 0 ∈ v := by
  rw [List.getD_eq_getElem v 0 h]
  exact List.getElem_mem h

theorem monthLen_pos {y m : Nat} {v : List Nat}
    (h : lookupYear y nepaliCalendarData = some v) (h1 : 1 ≤ m) (h2 : m ≤ 12) :
    29 ≤ monthLen y m := by
  obtain ⟨_, _, hlen, hall⟩ := lookupYear_some_props h
  rw [monthLen_eq h]
  exact (hall _ (getD_mem_of_lt (by omega))).1

theorem cumMonths_one (y : Nat) : cumMonths y 1 = 0 := by
  simp [cumMonths]

theorem cumYears_at_2000 : cumYears 2000 = 0 := by
  simp [cumYears]

theorem cumMonths_succ {y m : Nat} {v : List Nat}
    (h : lookupYear y nepaliCalendarData = some v) (h1 : 1 ≤ m) (h2 : m ≤ 12) :
    cumMonths y (m + 1) = cumMonths y m + monthLen y m := by
  obtain ⟨_, _, hlen, _⟩ := lookupYear_some_props h
  have hm : m + 1 - 1 = (m - 1) + 1 := by omega
  have hlt : m - 1 < v.length := by omega
  unfold cumMonths
  rw [h]
  simp only [Option.getD_some]
  rw [hm, List.take_succ, List.sum_append, List.getElem?_eq_getElem hlt]
  rw [monthLen_eq h, List.getD_eq_getElem v 0 hlt]
  simp

theorem cumMonths_mono {y : Nat} {a b : Nat} (hab : a ≤ b) :
    cumMonths y a ≤ cumMonths y b := by
  unfold cumMonths
  set L := (lookupYear y nepaliCalendarData).getD [] with hL
  have h1 : L.take (a - 1) = (L.take (b - 1)).take (a - 1) := by
    rw [List.take_take]
    congr 1
    omega
  rw [h1]
  exact sum_take_le _ _

theorem cumMonths_le_yearLen (y m : Nat) : cumMonths y m ≤ yearLen y :=
  sum_take_le _ _

theorem cumMonths_full {y : Nat} {v : List Nat}
    (h : lookupYear y nepaliCalendarData = some v) :
    cumMonths y 13 = yearLen y := by
  obtain ⟨_, _, hlen, _⟩ := lookupYear_some_props h
  unfold cumMonths yearLen
  rw [h]
  simp only [Option.getD_some]
  rw [List.take_of_length_le (by omega)]

theorem cumYears_succ {y : Nat} (h : 2000 ≤ y) :
    cumYears (y + 1) = cumYears y + yearLen y := by
  unfold cumYears
  have h1 : y + 1 - 2000 = (y - 2000) + 1 := by omega
  rw [h1, List.range_succ, List.map_append, List.sum_append]
  simp only [List.map_cons, List.map_nil, List.sum_cons, List.sum_nil]
  have h2 : 2000 + (y - 2000) = y := by omega
  rw [h2]
  omega

theorem cumYears_le_succ (y : Nat) : cumYears y ≤ cumYears (y + 1) := by
  by_cases h : 2000 ≤ y
  · rw [cumYears_succ h]; omega
  · unfold cumYears
    have h1 : y - 2000 = 0 := by omega
    have h2 : y + 1 - 2000 = 0 := by omega
    rw [h1, h2]

theorem cumYears_mono {a b : Nat} (hab : a ≤ b) : cumYears a ≤ cumYears b := by
  induction b with
  | zero =>
      have h0 : a = 0 := by omega
      subst h0
      exact le_refl _
  | succ n ih =>
      rcases Nat.lt_or_ge a (n + 1) with h | h
      · exact le_trans (ih (by omega)) (cumYears_le_succ n)
      · have : a = n + 1 := by omega
        subst this
        exact le_refl _

/-! ## Walk lemmas -/

theorem walk_succ (fuel y m day : Nat) :
    walk (fuel + 1) y m day =
      if day = 0 then .ok ⟨y, m, day⟩
      else
        match lookupYear y nepaliCalendarData with
        | none => .error .OUT_OF_RANGE
        | some monthData =>
            if day ≤ monthData.getD (m - 1) 0 then .ok ⟨y, m, day⟩
            else if 12 ≤ m then walk fuel (y + 1) 1 (day - monthData.getD (m - 1) 0)
            else walk fuel y (m + 1) (day - monthData.getD (m - 1) 0) := rfl

/-- Any `ok` result of the walk is a valid BS date, provided the walk starts
from a month in `[1,12]` and a positive day count (as `englishToNepali`
always does). -/
theorem walk_ok_valid :
    ∀ (fuel y m day : Nat) (d : NepaliDate), 1 ≤ m → m ≤ 12 → 1 ≤ day →
      walk fuel y m day = .ok d →
      ∃ y2 m2 d2 : Nat, d = ⟨(y2 : Int), (m2 : Int), (d2 : Int)⟩ ∧ validN y2 m2 d2 := by
  intro fuel
  induction fuel with
  | zero =>
      intro y m day d _ _ _ h
      exact absurd h (by simp [walk])
  | succ n ih =>
      intro y m day d hm1 hm2 hday h
      rw [walk_succ, if_neg (by omega)] at h
      cases hlook : lookupYear y nepaliCalendarData with
      | none =>
          simp only [hlook] at h
          exact Except.noConfusion h
      | some v =>
          simp only [hlook] at h
          by_cases hbreak : day ≤ v.getD (m - 1) 0
          · rw [if_pos hbreak] at h
            cases h
            obtain ⟨hy1, hy2, hlen, hall⟩ := lookupYear_some_props hlook
            refine ⟨y, m, day, rfl, hy1, hy2, hm1, hm2, hday, ?_⟩
            rw [monthLen_eq hlook]
            exact hbreak
          · rw [if_neg hbreak] at h
            by_cases h12 : 12 ≤ m
            · rw [if_pos h12] at h
              exact ih (y + 1) 1 (day - v.getD (m - 1) 0) d (by omega) (by omega) (by omega) h
            · rw [if_neg h12] at h
              exact ih y (m + 1) (day - v.getD (m - 1) 0) d (by omega) (by omega) (by omega) h

/-- With enough budget and a target position inside the table span, the walk
returns a valid BS date sitting at exactly the requested global day index. -/
theorem walk_ok_spec :
    ∀ (fuel y m day : Nat), 2000 ≤ y → 1 ≤ m → m ≤ 12 → 1 ≤ day →
      cumYears y + cumMonths y m + day ≤ tableTotalDays →
      (2101 - y) * 12 + (12 - m) < fuel →
      ∃ y2 m2 d2 : Nat,
        walk fuel y m day = .ok ⟨(y2 : Int), (m2 : Int), (d2 : Int)⟩ ∧
        validN y2 m2 d2 ∧ idxN y2 m2 d2 = cumYears y + cumMonths y m + day := by
  intro fuel
  induction fuel with
  | zero => intro y m day _ _ _ _ _ hf; omega
  | succ n ih =>
      intro y m day hy hm1 hm2 hday hpos hf
      have hylt : y ≤ 2100 := by
        by_contra hy2
        have h1 : cumYears 2101 ≤ cumYears y := cumYears_mono (by omega)
        have h2 : tableTotalDays = cumYears 2101 := rfl
        omega
      obtain ⟨v, hlook⟩ := lookupYear_exists hy hylt
      rw [walk_succ, if_neg (by omega)]
      simp only [hlook]
      have hdim_eq : v.getD (m - 1) 0 = monthLen y m := (monthLen_eq hlook).symm
      by_cases hbreak : day ≤ v.getD (m - 1) 0
      · rw [if_pos hbreak]
        refine ⟨y, m, day, rfl, ⟨hy, hylt, hm1, hm2, hday, by omega⟩, rfl⟩
      · rw [if_neg hbreak]
        have hstep : cumMonths y (m + 1) = cumMonths y m + monthLen y m :=
          cumMonths_succ hlook hm1 hm2
        by_cases h12 : 12 ≤ m
        · rw [if_pos h12]
          have hm12 : m = 12 := by omega
          subst hm12
          have hfull : cumMonths y 13 = yearLen y := cumMonths_full hlook
          have hys : cumYears (y + 1) = cumYears y + yearLen y := cumYears_succ hy
          have hone : cumMonths (y + 1) 1 = 0 := cumMonths_one (y + 1)
          have hl2 : cumMonths y (12 + 1) = cumMonths y 13 := rfl
          obtain ⟨y2, m2, d2, hw, hv, hidx⟩ :=
            ih (y + 1) 1 (day - v.getD (12 - 1) 0) (by omega) (by omega) (by omega)
              (by omega) (by omega) (by omega)
          exact ⟨y2, m2, d2, hw, hv, by omega⟩
        · rw [if_neg h12]
          have hposnew :
              cumYears y + cumMonths y (m + 1) + (day - v.getD (m - 1) 0) =
              cumYears y + cumMonths y m + day := by
            omega
          obtain ⟨y2, m2, d2, hw, hv, hidx⟩ :=
            ih y (m + 1) (day - v.getD (m - 1) 0) hy (by omega) (by omega)
              (by omega) (by omega) (by omega)
          exact ⟨y2, m2, d2, hw, hv, by omega⟩

/-- A target position strictly beyond the table span makes the walk fail
`OUT_OF_RANGE`, whatever the budget. -/
theorem walk_out_of_range :
    ∀ (fuel y m day : Nat), 1 ≤ m → m ≤ 12 → 1 ≤ day →
      tableTotalDays < cumYears y + cumMonths y m + day →
      walk fuel y m day = .error .OUT_OF_RANGE := by
  intro fuel
  induction fuel with
  | zero => intro y m day _ _ _ _; simp [walk]
  | succ n ih =>
      intro y m day hm1 hm2 hday hpos
      rw [walk_succ, if_neg (by omega)]
      cases hlook : lookupYear y nepaliCalendarData with
      | none => simp only []
      | some v =>
          simp only []
          obtain ⟨hy1, hy2, hlen, hall⟩ := lookupYear_some_props hlook
          have hdim_eq : v.getD (m - 1) 0 = monthLen y m := (monthLen_eq hlook).symm
          have hstep : cumMonths y (m + 1) = cumMonths y m + monthLen y m :=
            cumMonths_succ hlook hm1 hm2
          have hbreak : ¬ day ≤ v.getD (m - 1) 0 := by
            intro hle
            have hmono : cumMonths y (m + 1) ≤ yearLen y := cumMonths_le_yearLen y (m + 1)
            have hys : cumYears (y + 1) = cumYears y + yearLen y := cumYears_succ hy1
            have hup : cumYears (y + 1) ≤ cumYears 2101 := cumYears_mono (by omega)
            have h2 : tableTotalDays = cumYears 2101 := rfl
            omega
          rw [if_neg hbreak]
          by_cases h12 : 12 ≤ m
          · rw [if_pos h12]
            have hm12 : m = 12 := by omega
            subst hm12
            have hfull : cumMonths y 13 = yearLen y := cumMonths_full hlook
            have hys : cumYears (y + 1) = cumYears y + yearLen y := cumYears_succ hy1
            have hone : cumMonths (y + 1) 1 = 0 := cumMonths_one (y + 1)
            have hl2 : cumMonths y (12 + 1) = cumMonths y 13 := rfl
            exact ih (y + 1) 1 (day - v.getD (12 - 1) 0) (by omega) (by omega) (by omega)
              (by omega)
          · rw [if_neg h12]
            exact ih y (m + 1) (day - v.getD (m - 1) 0) (by omega) (by omega) (by omega) (by omega)

/-! ## Index bounds, monotonicity, injectivity -/

theorem idx_le_total {y m d : Nat} (h : validN y m d) : idxN y m d ≤ tableTotalDays := by
  obtain ⟨hy1, hy2, hm1, hm2, hd1, hd2⟩ := h
  obtain ⟨v, hlook⟩ := lookupYear_exists hy1 hy2
  have hstep : cumMonths y (m + 1) = cumMonths y m + monthLen y m :=
    cumMonths_succ hlook hm1 hm2
  have hmono : cumMonths y (m + 1) ≤ yearLen y := cumMonths_le_yearLen y (m + 1)
  have hys : cumYears (y + 1) = cumYears y + yearLen y := cumYears_succ hy1
  have hup : cumYears (y + 1) ≤ cumYears 2101 := cumYears_mono (by omega)
  have ht : tableTotalDays = cumYears 2101 := rfl
  unfold idxN
  omega

theorem idx_strict_mono {y1 m1 d1 y2 m2 d2 : Nat}
    (h1 : validN y1 m1 d1) (h2 : validN y2 m2 d2)
    (hlex : y1 < y2 ∨ (y1 = y2 ∧ m1 < m2) ∨ (y1 = y2 ∧ m1 = m2 ∧ d1 < d2)) :
    idxN y1 m1 d1 < idxN y2 m2 d2 := by
  obtain ⟨ha1, ha2, hb1, hb2, hc1, hc2⟩ := h1
  obtain ⟨he1, he2, hf1, hf2, hg1, hg2⟩ := h2
  obtain ⟨v1, hl1⟩ := lookupYear_exists ha1 ha2
  rcases hlex with hy | ⟨hy, hm⟩ | ⟨hy, hm, hd⟩
  · have hstep : cumMonths y1 (m1 + 1) = cumMonths y1 m1 + monthLen y1 m1 :=
      cumMonths_succ hl1 hb1 hb2
    have hmono : cumMonths y1 (m1 + 1) ≤ yearLen y1 := cumMonths_le_yearLen y1 (m1 + 1)
    have hys : cumYears (y1 + 1) = cumYears y1 + yearLen y1 := cumYears_succ ha1
    have hup : cumYears (y1 + 1) ≤ cumYears y2 := cumYears_mono (by omega)
    unfold idxN
    omega
  · subst hy
    have hstep : cumMonths y1 (m1 + 1) = cumMonths y1 m1 + monthLen y1 m1 :=
      cumMonths_succ hl1 hb1 hb2
    have hmono : cumMonths y1 (m1 + 1) ≤ cumMonths y1 m2 := cumMonths_mono (by omega)
    unfold idxN
    omega
  · subst hy
    subst hm
    unfold idxN
    omega

theorem idx_inj {y1 m1 d1 y2 m2 d2 : Nat}
    (h1 : validN y1 m1 d1) (h2 : validN y2 m2 d2)
    (heq : idxN y1 m1 d1 = idxN y2 m2 d2) : y1 = y2 ∧ m1 = m2 ∧ d1 = d2 := by
  rcases Nat.lt_trichotomy y1 y2 with hy | hy | hy
  · exact absurd heq (by have := idx_strict_mono h1 h2 (Or.inl hy); omega)
  · rcases Nat.lt_trichotomy m1 m2 with hm | hm | hm
    · exact absurd heq
        (by have := idx_strict_mono h1 h2 (Or.inr (Or.inl ⟨hy, hm⟩)); omega)
    · rcases Nat.lt_trichotomy d1 d2 with hd | hd | hd
      · exact absurd heq
          (by have := idx_strict_mono h1 h2 (Or.inr (Or.inr ⟨hy, hm, hd⟩)); omega)
      · exact ⟨hy, hm, hd⟩
      · exact absurd heq
          (by have := idx_strict_mono h2 h1 (Or.inr (Or.inr ⟨hy.symm, hm.symm, hd⟩)); omega)
    · exact absurd heq
        (by have := idx_strict_mono h2 h1 (Or.inr (Or.inl ⟨hy.symm, hm⟩)); omega)
  · exact absurd heq (by have := idx_strict_mono h2 h1 (Or.inl hy); omega)

/-! ## Bridging the Int-valued record and Nat triples -/

theorem isValid_of_validN {y m d : Nat} (h : validN y m d) :
    isValidNepaliDate ⟨(y : Int), (m : Int), (d : Int)⟩ = true := by
  obtain ⟨hy1, hy2, hm1, hm2, hd1, hd2⟩ := h
  obtain ⟨v, hlook⟩ := lookupYear_exists hy1 hy2
  have hmn : monthLen y m = v.getD (m - 1) 0 := monthLen_eq hlook
  unfold isValidNepaliDate
  rw [if_neg (by push_cast; omega)]
  rw [if_neg (by push_cast; omega)]
  have htn : ((y : Int)).toNat = y := rfl
  have htm : ((m : Int)).toNat = m := rfl
  simp only [htn, htm, hlook]
  simp only [Bool.and_eq_true, decide_eq_true_eq]
  constructor
  · exact_mod_cast hd1
  · rw [← hmn]
    exact_mod_cast hd2

theorem validN_of_isValid {d : NepaliDate} (h : isValidNepaliDate d = true) :
    ∃ y m dd : Nat, d = ⟨(y : Int), (m : Int), (dd : Int)⟩ ∧ validN y m dd := by
  obtain ⟨Y, M, D⟩ := d
  unfold isValidNepaliDate at h
  by_cases h1 : Y < 2000 ∨ Y > 2100
  · rw [if_pos h1] at h; exact absurd h (by simp)
  rw [if_neg h1] at h
  by_cases h2 : M < 1 ∨ M > 12
  · rw [if_pos h2] at h; exact absurd h (by simp)
  rw [if_neg h2] at h
  push_neg at h1 h2
  cases hlook : lookupYear Y.toNat nepaliCalendarData with
  | none =>
      simp only [hlook] at h
      exact absurd h (by decide)
  | some v =>
      simp only [hlook, Bool.and_eq_true, decide_eq_true_eq] at h
      refine ⟨Y.toNat, M.toNat, D.toNat, ?_, ?_⟩
      · rw [Int.toNat_of_nonneg (by omega), Int.toNat_of_nonneg (by omega),
          Int.toNat_of_nonneg (by omega)]
      · have hmn : monthLen Y.toNat M.toNat = v.getD (M.toNat - 1) 0 := monthLen_eq hlook
        refine ⟨by omega, by omega, by omega, by omega, by omega, ?_⟩
        rw [hmn]
        omega

/-! ## The reverse converter on valid inputs -/

theorem sumYears_spec :
    ∀ (n y0 : Nat), 2000 ≤ y0 → y0 + n ≤ 2101 →
      sumYears n y0 = .ok (cumYears (y0 + n) - cumYears y0) := by
  intro n
  induction n with
  | zero =>
      intro y0 _ _
      rw [show y0 + 0 = y0 from rfl, Nat.sub_self]
      rfl
  | succ k ih =>
      intro y0 hy0 hup
      obtain ⟨v, hv⟩ := lookupYear_exists hy0 (by omega)
      rw [sumYears]
      simp only [hv]
      rw [ih (y0 + 1) (by omega) (by omega)]
      simp only [Except.map]
      have hvs : yearLen y0 = v.sum := by
        unfold yearLen
        rw [hv]
        rfl
      have hss : cumYears (y0 + 1) = cumYears y0 + yearLen y0 := cumYears_succ hy0
      have hl1 : cumYears (y0 + 1 + k) = cumYears (y0 + (k + 1)) := by
        rw [show y0 + 1 + k = y0 + (k + 1) from by omega]
      have hmono : cumYears (y0 + 1) ≤ cumYears (y0 + 1 + k) := cumYears_mono (by omega)
      have hkey : v.sum + (cumYears (y0 + 1 + k) - cumYears (y0 + 1)) =
          cumYears (y0 + (k + 1)) - cumYears y0 := by omega
      rw [hkey]

theorem nepaliToEnglish_valid {y m d : Nat} (h : validN y m d) :
    nepaliToEnglish ⟨(y : Int), (m : Int), (d : Int)⟩ =
      .ok (epochDayNum + (idxN y m d : Int) - 1) := by
  have hval := isValid_of_validN h
  obtain ⟨hy1, hy2, hm1, hm2, hd1, hd2⟩ := h
  obtain ⟨v, hlook⟩ := lookupYear_exists hy1 hy2
  have hsum : sumYears (y - 2000) 2000 = .ok (cumYears y) := by
    have hs := sumYears_spec (y - 2000) 2000 (le_refl _) (by omega)
    rw [show 2000 + (y - 2000) = y from by omega] at hs
    rw [hs, cumYears_at_2000, Nat.sub_zero]
  have e1 : ((y : Int)).toNat = y := rfl
  have e2 : ((m : Int)).toNat = m := rfl
  have hcm : cumMonths y m = (v.take (m - 1)).sum := by
    unfold cumMonths
    rw [hlook]
    rfl
  unfold nepaliToEnglish
  rw [if_pos hval]
  simp only [e1, e2, hsum, hlook]
  have harith :
      epochDayNum + (cumYears y : Int) + ((v.take (m - 1)).sum : Int) + ((d : Int) - 1) =
      epochDayNum + (idxN y m d : Int) - 1 := by
    unfold idxN
    rw [hcm]
    push_cast
    ring
  rw [harith]

theorem except_ok_bind {α β : Type} (x : α) (f : α → Except ErrCode β) :
    (Except.ok x).bind f = f x := rfl

theorem englishToNepali_def (g : Int) :
    englishToNepali g =
      if g - epochDayNum < 0 then .error .OUT_OF_RANGE
      else walk walkFuel 2000 1 (1 + (g - epochDayNum).toNat) := rfl

/-! ## The claims -/

/-- C2 — Epoch boundary: converting Gregorian 1943-04-14 yields BS 2000/1/1
exactly, and converting Gregorian 1943-04-13 (one day before the anchor)
fails with `OUT_OF_RANGE`. -/
theorem claim_C2_epoch_boundary :
    englishToNepali ((gregDayNumber 1943 4 14 : Nat) : Int) = .ok ⟨2000, 1, 1⟩ ∧
    englishToNepali ((gregDayNumber 1943 4 13 : Nat) : Int) = .error .OUT_OF_RANGE := by
  constructor
  · rfl
  · rfl

/-- C4 counterexample — the claimed long-format output "15 कार्तिक 2081" for
BS 2081/8/15 is false: month 8 reads `nepaliMonthNames[7]` = "मंसिर". -/
theorem claim_C4_counterexample :
    ¬ (formatNepaliDate ⟨2081, 8, 15⟩ .short = "2081/08/15" ∧
       formatNepaliDate ⟨2081, 8, 15⟩ .long = "15 कार्तिक 2081") := by
  intro h
  exact absurd h.2 (by decide)

/-- C4 (amended) — Formatting examples: short mode yields "2081/08/15" and
long mode yields "15 मंसिर 2081" for BS 2081/8/15 (the pattern
`{day} {MonthName[month-1]} {year}` over the fixed table puts मंसिर, the
eighth name, at month 8). -/
theorem claim_C4_formatting_amended :
    formatNepaliDate ⟨2081, 8, 15⟩ .short = "2081/08/15" ∧
    formatNepaliDate ⟨2081, 8, 15⟩ .long = "15 मंसिर 2081" := by
  constructor
  · rfl
  · rfl

/-- C9 — Fallback never throws: `getCurrentNepaliDate` is total by type; for
every current instant it returns the fixed fallback `{2081,1,1}` whenever the
underlying forward conversion fails (for any error), and the forward
conversion's result otherwise. -/
theorem claim_C9_fallback :
    ∀ now : Int,
      (∀ e, englishToNepali now = .error e → getCurrentNepaliDate now = ⟨2081, 1, 1⟩) ∧
      (∀ d, englishToNepali now = .ok d → getCurrentNepaliDate now = d) := by
  intro now
  constructor
  · intro e he
    unfold getCurrentNepaliDate
    rw [he]
  · intro d hd
    unfold getCurrentNepaliDate
    rw [hd]

/-- C9 witness: one day before the epoch the conversion fails, and the
resolver indeed returns the fallback constant. -/
theorem claim_C9_witness :
    getCurrentNepaliDate (epochDayNum - 1) = ⟨2081, 1, 1⟩ :=
  (claim_C9_fallback (epochDayNum - 1)).1 .OUT_OF_RANGE rfl

/-- C5 — Validator contract: `isValidNepaliDate` is total (boolean-valued by
type, it never throws) and returns `true` exactly when the year is in
[2000,2100], the month in [1,12], the year has a table entry, and the day is
in `[1, monthLength(year, month)]`; with the four boundary examples. -/
theorem claim_C5_validator :
    (∀ d : NepaliDate,
      isValidNepaliDate d = true ↔
        (2000 ≤ d.year ∧ d.year ≤ 2100 ∧ 1 ≤ d.month ∧ d.month ≤ 12 ∧
         (lookupYear d.year.toNat nepaliCalendarData).isSome = true ∧
         1 ≤ d.day ∧ d.day ≤ (monthLen d.year.toNat d.month.toNat : Int))) ∧
    isValidNepaliDate ⟨2000, 1, 30⟩ = true ∧
    isValidNepaliDate ⟨2000, 1, 31⟩ = false ∧
    isValidNepaliDate ⟨1999, 1, 1⟩ = false ∧
    isValidNepaliDate ⟨2101, 1, 1⟩ = false := by
  refine ⟨?_, by decide, by decide, by decide, by decide⟩
  intro d
  constructor
  · intro h
    obtain ⟨y, m, dd, heq, hv⟩ := validN_of_isValid h
    subst heq
    obtain ⟨hy1, hy2, hm1, hm2, hd1, hd2⟩ := hv
    obtain ⟨v, hlook⟩ := lookupYear_exists hy1 hy2
    have e1 : ((⟨(y : Int), (m : Int), (dd : Int)⟩ : NepaliDate)).year.toNat = y := rfl
    have e2 : ((⟨(y : Int), (m : Int), (dd : Int)⟩ : NepaliDate)).month.toNat = m := rfl
    have p1 : ((⟨(y : Int), (m : Int), (dd : Int)⟩ : NepaliDate)).year = (y : Int) := rfl
    have p2 : ((⟨(y : Int), (m : Int), (dd : Int)⟩ : NepaliDate)).month = (m : Int) := rfl
    have p3 : ((⟨(y : Int), (m : Int), (dd : Int)⟩ : NepaliDate)).day = (dd : Int) := rfl
    rw [e1, e2, p1, p2, p3, hlook]
    refine ⟨by exact_mod_cast hy1, by exact_mod_cast hy2, by exact_mod_cast hm1,
      by exact_mod_cast hm2, rfl, by exact_mod_cast hd1, by exact_mod_cast hd2⟩
  · intro ⟨hy1, hy2, hm1, hm2, hsome, hd1, hd2⟩
    have hvn : validN d.year.toNat d.month.toNat d.day.toNat := by
      refine ⟨by omega, by omega, by omega, by omega, by omega, by omega⟩
    have hd : (⟨((d.year.toNat : Nat) : Int), ((d.month.toNat : Nat) : Int),
        ((d.day.toNat : Nat) : Int)⟩ : NepaliDate) = d := by
      rw [Int.toNat_of_nonneg (by omega : (0 : Int) ≤ d.year),
        Int.toNat_of_nonneg (by omega : (0 : Int) ≤ d.month),
        Int.toNat_of_nonneg (by omega : (0 : Int) ≤ d.day)]
    rw [← hd]
    exact isValid_of_validN hvn

/-- C6 — Day-count lookup contract: `getDaysInNepaliMonth` fails (always with
kind `INVALID_NEPALI_DATE`) iff the year has no table entry or the month is
outside [1,12]; on every year in [2000,2100] and month in [1,12] it succeeds
with exactly the table's stored value; and `getDaysInNepaliMonth 2081 8 = 30`. -/
theorem claim_C6_day_lookup :
    (∀ y m : Int,
      getDaysInNepaliMonth y m = .error .INVALID_NEPALI_DATE ↔
        (lookupYear y.toNat nepaliCalendarData = none ∨ m < 1 ∨ 12 < m)) ∧
    (∀ (y m : Int) (e : ErrCode), getDaysInNepaliMonth y m = .error e →
      e = .INVALID_NEPALI_DATE) ∧
    (∀ y m : Int, 2000 ≤ y → y ≤ 2100 → 1 ≤ m → m ≤ 12 →
      ∃ v, lookupYear y.toNat nepaliCalendarData = some v ∧
        getDaysInNepaliMonth y m = .ok ((v.getD (m.toNat - 1) 0 : Nat) : Int)) ∧
    getDaysInNepaliMonth 2081 8 = .ok 30 := by
  refine ⟨?_, ?_, ?_, rfl⟩
  · intro y m
    unfold getDaysInNepaliMonth
    cases hlook : lookupYear y.toNat nepaliCalendarData with
    | none => simp
    | some v =>
        simp only [hlook]
        by_cases hm : m < 1 ∨ m > 12
        · rw [if_pos hm]
          constructor
          · intro _
            right
            omega
          · intro _
            rfl
        · rw [if_neg hm]
          constructor
          · intro h
            exact Except.noConfusion h
          · intro h
            rcases h with h | h | h
            · exact Option.noConfusion h
            · omega
            · omega
  · intro y m e h
    unfold getDaysInNepaliMonth at h
    cases hlook : lookupYear y.toNat nepaliCalendarData with
    | none =>
        simp only [hlook] at h
        cases h
        rfl
    | some v =>
        simp only [hlook] at h
        by_cases hm : m < 1 ∨ m > 12
        · rw [if_pos hm] at h
          cases h
          rfl
        · rw [if_neg hm] at h
          exact Except.noConfusion h
  · intro y m hy1 hy2 hm1 hm2
    obtain ⟨v, hlook⟩ := lookupYear_exists (show 2000 ≤ y.toNat by omega)
      (show y.toNat ≤ 2100 by omega)
    refine ⟨v, hlook, ?_⟩
    unfold getDaysInNepaliMonth
    simp only [hlook]
    rw [if_neg (by omega)]

/-- C6 witness: the success branch applied at (2081, 8). -/
theorem claim_C6_witness :
    ∃ v, lookupYear (2081 : Int).toNat nepaliCalendarData = some v ∧
      getDaysInNepaliMonth 2081 8 = .ok ((v.getD ((8 : Int).toNat - 1) 0 : Nat) : Int) :=
  claim_C6_day_lookup.2.2.1 2081 8 (by decide) (by decide) (by decide) (by decide)

/-- C7 — Eager validation of the reverse converter: `nepaliToEnglish` fails
with `INVALID_NEPALI_DATE` exactly on the inputs `isValidNepaliDate` rejects
(the validity check is the first thing the function does), and on every valid
input it succeeds with a Gregorian date — it never hits the mid-walk
`OUT_OF_RANGE` throws, since every traversed year has a table entry. -/
theorem claim_C7_eager_validation :
    ∀ d : NepaliDate,
      (nepaliToEnglish d = .error .INVALID_NEPALI_DATE ↔ isValidNepaliDate d = false) ∧
      (isValidNepaliDate d = true → ∃ g : Int, nepaliToEnglish d = .ok g) := by
  intro d
  by_cases hv : isValidNepaliDate d = true
  · obtain ⟨y, m, dd, heq, hvn⟩ := validN_of_isValid hv
    subst heq
    have hok := nepaliToEnglish_valid hvn
    constructor
    · constructor
      · intro herr
        rw [herr] at hok
        exact Except.noConfusion hok
      · intro hfalse
        rw [hv] at hfalse
        exact Bool.noConfusion hfalse
    · intro _
      exact ⟨_, hok⟩
  · have hfalse : isValidNepaliDate d = false := by
      cases h : isValidNepaliDate d
      · rfl
      · exact absurd h hv
    have herr : nepaliToEnglish d = .error .INVALID_NEPALI_DATE := by
      unfold nepaliToEnglish
      rw [if_neg hv]
    exact ⟨⟨fun _ => hfalse, fun _ => herr⟩, fun h => absurd h hv⟩

/-- C7 witness: the valid date BS 2081/8/15 converts successfully. -/
theorem claim_C7_witness :
    ∃ g : Int, nepaliToEnglish ⟨2081, 8, 15⟩ = .ok g :=
  (claim_C7_eager_validation ⟨2081, 8, 15⟩).2 (by decide)

/-- C8 — Forward-walk upper bound: any Gregorian day on or after the epoch
whose whole-day offset from 1943-04-14 exceeds the total day count of BS
years 2000..2100 makes `englishToNepali` fail `OUT_OF_RANGE` (the walk runs
off the table mid-walk); and `englishToNepali` never returns an invalid
BSDate — every date it returns passes `isValidNepaliDate`. -/
theorem claim_C8_upper_bound :
    (∀ g : Int, epochDayNum ≤ g → (tableTotalDays : Int) < g - epochDayNum →
      englishToNepali g = .error .OUT_OF_RANGE) ∧
    (∀ (g : Int) (d : NepaliDate), englishToNepali g = .ok d →
      isValidNepaliDate d = true) := by
  constructor
  · intro g hge hgt
    rw [englishToNepali_def, if_neg (by omega)]
    apply walk_out_of_range walkFuel 2000 1 (1 + (g - epochDayNum).toNat)
      (by omega) (by omega) (by omega)
    have h0 : cumYears 2000 = 0 := cumYears_at_2000
    have h1 : cumMonths 2000 1 = 0 := cumMonths_one 2000
    have h2 : tableTotalDays = cumYears 2101 := rfl
    omega
  · intro g d hok
    rw [englishToNepali_def] at hok
    by_cases hneg : g - epochDayNum < 0
    · rw [if_pos hneg] at hok
      exact Except.noConfusion hok
    · rw [if_neg hneg] at hok
      obtain ⟨y2, m2, d2, heq, hv⟩ :=
        walk_ok_valid walkFuel 2000 1 (1 + (g - epochDayNum).toNat) d
          (by omega) (by omega) (by omega) hok
      rw [heq]
      exact isValid_of_validN hv

set_option maxRecDepth 10000 in
/-- C8 witness: one day past the end of the table span fails `OUT_OF_RANGE`,
by the first part of the claim applied at a concrete offset. -/
theorem claim_C8_witness :
    englishToNepali (epochDayNum + (tableTotalDays : Int) + 1) = .error .OUT_OF_RANGE :=
  claim_C8_upper_bound.1 (epochDayNum + (tableTotalDays : Int) + 1)
    (by decide) (by decide)

/-- C1 — Round-trip A: for every valid NepaliDate `d`, converting to a
Gregorian date with `nepaliToEnglish` and back with `englishToNepali`
returns exactly `d`. -/
theorem claim_C1_roundtrip_A :
    ∀ d : NepaliDate, isValidNepaliDate d = true →
      (nepaliToEnglish d).bind englishToNepali = .ok d := by
  intro d hv
  obtain ⟨y, m, dd, heq, hvn⟩ := validN_of_isValid hv
  subst heq
  rw [nepaliToEnglish_valid hvn]
  show englishToNepali (epochDayNum + (idxN y m dd : Int) - 1) =
    .ok ⟨(y : Int), (m : Int), (dd : Int)⟩
  have hidx1 : 1 ≤ idxN y m dd := by
    obtain ⟨_, _, _, _, hd1, _⟩ := hvn
    unfold idxN
    omega
  have hle : idxN y m dd ≤ tableTotalDays := idx_le_total hvn
  rw [englishToNepali_def, if_neg (by omega)]
  have harg :
      1 + ((epochDayNum + ((idxN y m dd : Nat) : Int) - 1) - epochDayNum).toNat =
      idxN y m dd := by
    omega
  rw [harg]
  obtain ⟨y2, m2, d2, hw, hv2, hidx2⟩ :=
    walk_ok_spec walkFuel 2000 1 (idxN y m dd) (le_refl _) (by omega) (by omega) hidx1
      (by
        have h0 : cumYears 2000 = 0 := cumYears_at_2000
        have hc1 : cumMonths 2000 1 = 0 := cumMonths_one 2000
        omega)
      (by decide)
  have heq2 : idxN y2 m2 d2 = idxN y m dd := by
    have h0 : cumYears 2000 = 0 := cumYears_at_2000
    have hc1 : cumMonths 2000 1 = 0 := cumMonths_one 2000
    omega
  obtain ⟨ey, em, ed⟩ := idx_inj hv2 hvn heq2
  subst ey
  subst em
  subst ed
  exact hw

/-- C1 witness: the round trip at the concrete valid date BS 2081/8/15. -/
theorem claim_C1_witness :
    (nepaliToEnglish ⟨2081, 8, 15⟩).bind englishToNepali = .ok ⟨2081, 8, 15⟩ :=
  claim_C1_roundtrip_A ⟨2081, 8, 15⟩ (by decide)

set_option maxRecDepth 10000 in
/-- C3 — Round-trip B: for every Gregorian day `g` between the epoch anchor
and the Gregorian date corresponding to BS 2100/12/30 (the last table day,
whose correspondence is the second conjunct), converting forward and back
returns `g` (day numbers compare dates at whole-day granularity). -/
theorem claim_C3_roundtrip_B :
    (∀ g : Int, epochDayNum ≤ g → g ≤ epochDayNum + (tableTotalDays : Int) - 1 →
      (englishToNepali g).bind nepaliToEnglish = .ok g) ∧
    nepaliToEnglish ⟨2100, 12, 30⟩ = .ok (epochDayNum + (tableTotalDays : Int) - 1) := by
  constructor
  · intro g h1 h2
    rw [englishToNepali_def, if_neg (by omega)]
    obtain ⟨y2, m2, d2, hw, hv2, hidx2⟩ :=
      walk_ok_spec walkFuel 2000 1 (1 + (g - epochDayNum).toNat) (le_refl _)
        (by omega) (by omega) (by omega)
        (by
          have h0 : cumYears 2000 = 0 := cumYears_at_2000
          have hc1 : cumMonths 2000 1 = 0 := cumMonths_one 2000
          omega)
        (by decide)
    rw [hw, except_ok_bind]
    rw [nepaliToEnglish_valid hv2]
    have h0 : cumYears 2000 = 0 := cumYears_at_2000
    have hc1 : cumMonths 2000 1 = 0 := cumMonths_one 2000
    have harith : epochDayNum + ((idxN y2 m2 d2 : Nat) : Int) - 1 = g := by omega
    rw [harith]
  · have hvn : validN 2100 12 30 := by decide
    have hconv := nepaliToEnglish_valid hvn
    have hidx : idxN 2100 12 30 = tableTotalDays := by decide
    rw [hidx] at hconv
    exact hconv

set_option maxRecDepth 10000 in
/-- C3 witness: the round trip at the epoch day itself. -/
theorem claim_C3_witness :
    (englishToNepali epochDayNum).bind nepaliToEnglish = .ok epochDayNum :=
  claim_C3_roundtrip_B.1 epochDayNum (le_refl _) (by decide)

/-- C10 — Strict monotonicity of the reverse converter: on valid dates,
lexicographically earlier BS dates map to strictly earlier Gregorian days. -/
theorem claim_C10_strict_mono :
    ∀ d1 d2 : NepaliDate, isValidNepaliDate d1 = true → isValidNepaliDate d2 = true →
      (d1.year < d2.year ∨ (d1.year = d2.year ∧ d1.month < d2.month) ∨
       (d1.year = d2.year ∧ d1.month = d2.month ∧ d1.day < d2.day)) →
      ∃ g1 g2 : Int,
        nepaliToEnglish d1 = .ok g1 ∧ nepaliToEnglish d2 = .ok g2 ∧ g1 < g2 := by
  intro d1 d2 h1 h2 hlex
  obtain ⟨y1, m1, dd1, he1, hv1⟩ := validN_of_isValid h1
  obtain ⟨y2, m2, dd2, he2, hv2⟩ := validN_of_isValid h2
  subst he1
  subst he2
  have hlexN : y1 < y2 ∨ (y1 = y2 ∧ m1 < m2) ∨ (y1 = y2 ∧ m1 = m2 ∧ dd1 < dd2) := by
    have q1 : ((⟨(y1 : Int), (m1 : Int), (dd1 : Int)⟩ : NepaliDate)).year = (y1 : Int) := rfl
    have q2 : ((⟨(y1 : Int), (m1 : Int), (dd1 : Int)⟩ : NepaliDate)).month = (m1 : Int) := rfl
    have q3 : ((⟨(y1 : Int), (m1 : Int), (dd1 : Int)⟩ : NepaliDate)).day = (dd1 : Int) := rfl
    have q4 : ((⟨(y2 : Int), (m2 : Int), (dd2 : Int)⟩ : NepaliDate)).year = (y2 : Int) := rfl
    have q5 : ((⟨(y2 : Int), (m2 : Int), (dd2 : Int)⟩ : NepaliDate)).month = (m2 : Int) := rfl
    have q6 : ((⟨(y2 : Int), (m2 : Int), (dd2 : Int)⟩ : NepaliDate)).day = (dd2 : Int) := rfl
    rw [q1, q2, q3, q4, q5, q6] at hlex
    rcases hlex with h | ⟨ha, hb⟩ | ⟨ha, hb, hc⟩
    · left
      exact_mod_cast h
    · right
      left
      exact ⟨by exact_mod_cast ha, by exact_mod_cast hb⟩
    · right
      right
      exact ⟨by exact_mod_cast ha, by exact_mod_cast hb, by exact_mod_cast hc⟩
  have hmono := idx_strict_mono hv1 hv2 hlexN
  refine ⟨_, _, nepaliToEnglish_valid hv1, nepaliToEnglish_valid hv2, ?_⟩
  omega

/-- C10 witness: BS 2000/1/1 maps strictly before BS 2000/1/2. -/
theorem claim_C10_witness :
    ∃ g1 g2 : Int,
      nepaliToEnglish ⟨2000, 1, 1⟩ = .ok g1 ∧ nepaliToEnglish ⟨2000, 1, 2⟩ = .ok g2 ∧
      g1 < g2 :=
  claim_C10_strict_mono ⟨2000, 1, 1⟩ ⟨2000, 1, 2⟩ (by decide) (by decide) (by decide)
